import Mathlib

/-!
Verification development for the invoice / delivery-note tooling
(`separar_facturas.py`, `procesa_facturas_y_albaranes.py`,
`procesar_albaranes.py`).

Text is modelled as `List Char` (ASCII payloads plus the accented
characters appearing in the sources).  Python regular expressions are
embedded as hand-written matchers that reproduce the backtracking
behaviour of the concrete patterns used by the scripts.  Pure string
processing is modelled exactly; I/O (PDF rendering, OCR, the
filesystem) is abstracted into explicit inputs: a page becomes its
extracted key, the delivery-note pool becomes the list of file names
in traversal order, and the output folder becomes the list of names
already present.
-/

/-- Text as a list of characters. -/
abbrev Str := List Char

/-- View a Lean string literal as a character list. -/
def strL (s : String) : Str := s.data

/-- Python regex `\s` / `str.strip` whitespace on ASCII input. -/
def isPySpace (c : Char) : Bool :=
  c == ' ' || c == '\t' || c == '\n' || c == '\r' || c == '\x0b' || c == '\x0c'

/-- Python regex `\w` (word character) on ASCII input: `[A-Za-z0-9_]`. -/
def isWordChar (c : Char) : Bool := c.isAlphanum || c == '_'

/-- Regex word boundary `\b` placed after a word character: the next
character (if any) must not be a word character. -/
def boundaryAfter : Str → Bool
  | [] => true
  | c :: _ => !(isWordChar c)

/-- Python `str.strip()`: remove leading and trailing whitespace. -/
def stripStr (s : Str) : Str :=
  ((s.dropWhile isPySpace).reverse.dropWhile isPySpace).reverse

/-- Helper for `re.sub(r'\s{2,}', ' ', s)`: a pending whitespace run is
replaced by a single space when its length is at least two, otherwise
the single whitespace character is kept as-is. -/
def flushRun (run : Str) : Str := if 2 ≤ run.length then [' '] else run

/-- Right-to-left scan for `re.sub(r'\s{2,}', ' ', s)`: the first
component is the processed remainder, the second the whitespace run
that immediately follows the current position. -/
def collapseRuns2Go : Str → Str × Str
  | [] => ([], [])
  | c :: rest =>
    let acc := collapseRuns2Go rest
    if isPySpace c then (acc.1, c :: acc.2)
    else (c :: (flushRun acc.2 ++ acc.1), [])

/-- Python `re.sub(r'\s{2,}', ' ', s)`: collapse each maximal
whitespace run of length at least two to one space. -/
def collapseRuns2 (s : Str) : Str :=
  let p := collapseRuns2Go s
  flushRun p.2 ++ p.1

/-- Right-to-left scan for `re.sub(r'\s+', ' ', s)`: the flag records
whether a whitespace run follows the current position. -/
def collapseWs1Go : Str → Str × Bool
  | [] => ([], false)
  | c :: rest =>
    let acc := collapseWs1Go rest
    if isPySpace c then (acc.1, true)
    else (c :: (if acc.2 then ' ' :: acc.1 else acc.1), false)

/-- Python `re.sub(r'\s+', ' ', s)`: replace every maximal whitespace
run (of any positive length) with a single space. -/
def collapseWs1 (s : Str) : Str :=
  let p := collapseWs1Go s
  if p.2 then ' ' :: p.1 else p.1

/-- Python `s.zfill(w)` for strings of sign-free digits: left-pad with
zeros up to width `w`. -/
def zfill (w : Nat) (s : Str) : Str := List.replicate (w - s.length) '0' ++ s

/-- Python `num.lstrip('0') or num` from `normalize_numeric_part`:
strip leading zeros but fall back to the original string when
everything was stripped. -/
def lstripZeros (num : Str) : Str :=
  let t := num.dropWhile (fun c => c == '0')
  if t = [] then num else t

/-- The character translation of `OCR_CONFUSION_MAP`
(separar_facturas.py, lines 47-54), applied by `str.translate`. -/
def ocrTranslate (c : Char) : Char :=
  if c == 'O' || c == 'o' then '0'
  else if c == 'I' || c == 'l' || c == '|' then '1'
  else if c == 'Z' then '2'
  else if c == 'S' then '5'
  else if c == 'B' then '8'
  else if c == '—' || c == '–' then '-'
  else c

/-- One character of an OCR corruption: either the clean character
itself, or a confusable letter standing for the clean digit (the
inverse images of `OCR_CONFUSION_MAP` on digits). -/
def confusedPair (a b : Char) : Bool :=
  a == b
  || (a == '0' && (b == 'O' || b == 'o'))
  || (a == '1' && (b == 'I' || b == 'l' || b == '|'))
  || (a == '2' && b == 'Z')
  || (a == '5' && b == 'S')
  || (a == '8' && b == 'B')

/-- Pointwise OCR corruption of a whole string. -/
def confusedOf : Str → Str → Bool
  | [], [] => true
  | a :: as, b :: bs => confusedPair a b && confusedOf as bs
  | _, _ => false

/-- One backtracking attempt of
`RE_SERIE_NUM = ^\s*([A-Za-z]{1,5})?\s*([0-9]{1,4})\b`
(separar_facturas.py, line 43) after the leading whitespace has been
removed from `t`: take `c` letters for the optional series group, skip
whitespace, then take the greedy digit group and check the trailing
word boundary (inner backtracking over the digit count always fails,
because a shorter digit group is followed by a digit, which is a word
character). -/
def serieNumAt (t : Str) (c : Nat) : Option (Str × Str) :=
  let letters := t.takeWhile Char.isAlpha
  if c ≤ letters.length then
    let serie := letters.take c
    let rest := (t.drop c).dropWhile isPySpace
    let digs := rest.takeWhile Char.isDigit
    if 1 ≤ digs.length ∧ digs.length ≤ 4 ∧ boundaryAfter (rest.drop digs.length) = true
    then some (serie, digs) else none
  else none

/-- `RE_SERIE_NUM.match(s)`: the optional series group is greedy, so
the letter counts 5, 4, …, 1 are tried before the absent group (0). -/
def matchSerieNum (s : Str) : Option (Str × Str) :=
  let t := s.dropWhile isPySpace
  [5, 4, 3, 2, 1, 0].findSome? (serieNumAt t)

/-- `re.search(r'([0-9]{1,4})', s)`: the match starts at the first
digit and greedily takes up to four digits of the run. -/
def firstDigitRun : Str → Option Str
  | [] => none
  | c :: rest =>
    if c.isDigit then some (((c :: rest).takeWhile Char.isDigit).take 4)
    else firstDigitRun rest

/-- `normalize_numeric_part` (separar_facturas.py, lines 124-145).
Returns the `(serie, num)` pair; an absent series is the empty string,
mirroring `serie if serie else ""`.  `None` inputs are modelled by the
empty list (`if not s`). -/
def normalize_numeric_part (s : Str) : Option (Str × Str) :=
  if s = [] then none
  else
    let m := s.map ocrTranslate
    match matchSerieNum m with
    | some (serie, num) => some ((stripStr serie).map Char.toUpper, lstripZeros num)
    | none =>
      match firstDigitRun m with
      | some num => some ([], lstripZeros num)
      | none => none

/-- `make_key_from_parts` (separar_facturas.py, lines 248-266).
Python falsy values (`None` and the empty string) are modelled as
`none`; `normalize_numeric_part` always returns a tuple when not
`None`, so the dead `isinstance` else-branch is not modelled. -/
def make_key_from_parts (serie num_str raw_number : Option Str) : Option Str :=
  match num_str with
  | some n => some (((serie.getD []).map Char.toUpper) ++ '#' :: zfill 4 n)
  | none =>
    match raw_number with
    | some raw =>
      match normalize_numeric_part raw with
      | some (s_part, n_part) =>
        some ((s_part.map Char.toUpper) ++ '#' :: zfill 4 n_part)
      | none => some (strL "RAW#" ++ stripStr (collapseWs1 raw))
    | none => none

/-- Pair every page index with its detected key, mirroring
`for i in range(total_pages)`. -/
def indexar (i : Nat) : List (Option Str) → List (Nat × Option Str)
  | [] => []
  | k :: rest => (i, k) :: indexar (i + 1) rest

/-- The page-grouping state machine of `procesar_pdf_separar`
(separar_facturas.py, lines 289-353), restricted to its key and page
bookkeeping: a `None` key with no open invoice skips (drops) the page,
a `None` key with an open invoice appends a continuation page, a fresh
key opens an invoice, a changed key closes (emits) the previous
invoice, and the open invoice is flushed at the end of the stream. -/
def agruparPaginas : List (Nat × Option Str) → Option (Str × List Nat) → List (Str × List Nat)
  | [], none => []
  | [], some cur => [cur]
  | (_, none) :: rest, none => agruparPaginas rest none
  | (i, none) :: rest, some (k, ps) => agruparPaginas rest (some (k, ps ++ [i]))
  | (i, some key) :: rest, none => agruparPaginas rest (some (key, [i]))
  | (i, some key) :: rest, some (k, ps) =>
    if key = k then agruparPaginas rest (some (k, ps ++ [i]))
    else (k, ps) :: agruparPaginas rest (some (key, [i]))

/-- `procesar_pdf_separar` as a function from the per-page key stream
to the emitted list of `(key, page indices)` invoices. -/
def procesar_pdf_separar (keys : List (Option Str)) : List (Str × List Nat) :=
  agruparPaginas (indexar 0 keys) none

/-- The character class removed by both scripts' filename sanitisers:
`[\/\\\:\*\?\"\<\>\|]`. -/
def isReservedChar (c : Char) : Bool :=
  c == '/' || c == '\\' || c == ':' || c == '*' || c == '?'
  || c == '"' || c == '<' || c == '>' || c == '|'

/-- `re.sub(r'[\/\\\:\*\?\"\<\>\|]', '_', ...)` on one character. -/
def reservedToUnderscore (c : Char) : Char := if isReservedChar c then '_' else c

/-- The filename computed by `save_invoice_pdf_from_reader`
(separar_facturas.py, lines 218-229) before collision resolution.
Python falsy strings are modelled as `none`. -/
def save_invoice_filename (fecha_iso serie num_str raw_number : Option Str) : Str :=
  match num_str with
  | some n =>
    (fecha_iso.getD (strL "0000-00-00")) ++ strL " FE#" ++ zfill 4 n
      ++ (match serie with | some s => ' ' :: s | none => []) ++ strL ".pdf"
  | none =>
    let safe_raw := stripStr ((raw_number.getD (strL "SIN_NUMERO")).map reservedToUnderscore)
    (fecha_iso.getD (strL "0000-00-00")) ++ ' ' :: safe_raw ++ strL ".pdf"

/-- Decimal rendering of a counter, as Python string formatting does. -/
def natToStr (n : Nat) : Str := (Nat.repr n).data

/-- The k-th candidate output name of the collision loop: the computed
name itself, then `base (k)ext` for `k ≥ 1`. -/
def candidato (base ext : Str) : Nat → Str
  | 0 => base ++ ext
  | Nat.succ k => base ++ ' ' :: '(' :: (natToStr (k + 1) ++ ')' :: ext)

/-- The `while os.path.exists(outpath)` collision loop of
`save_invoice_pdf_from_reader` (separar_facturas.py, lines 231-236)
and of `main` (procesa_facturas_y_albaranes.py, lines 276-281): scan
candidate names from counter `k` on, returning the first name not in
the folder listing `fs`.  The loop always terminates on a finite
folder; the fuel only bounds the recursion, `none` marks exhaustion. -/
def resolve_collision (fs : List Str) (base ext : Str) : Nat → Nat → Option Str
  | _, 0 => none
  | k, Nat.succ fuel =>
    if candidato base ext k ∈ fs then resolve_collision fs base ext (k + 1) fuel
    else some (candidato base ext k)

/-- Match a literal pattern at the head of `s`, returning the rest. -/
def dropStart : Str → Str → Option Str
  | [], s => some s
  | _ :: _, [] => none
  | p :: ps, c :: cs => if p == c then dropStart ps cs else none

/-- Case-insensitive variant of `dropStart` (regex `re.IGNORECASE`),
restricted to the ASCII case folding of `str.lower`. -/
def dropStartCI : Str → Str → Option Str
  | [], s => some s
  | _ :: _, [] => none
  | p :: ps, c :: cs => if p.toLower == c.toLower then dropStartCI ps cs else none

/-- Expect one case-insensitive character. -/
def expectCI (c : Char) : Str → Option Str
  | [] => none
  | x :: rest => if x.toLower == c.toLower then some rest else none

/-- The regex class `[aá]` under `re.IGNORECASE` ('a', 'A' and the
lower-case accented letter that appears in the sources). -/
def matchAccentA : Str → Option Str
  | [] => none
  | c :: rest => if c == 'a' || c == 'A' || c == 'á' then some rest else none

/-- Scan for `re.search(rf"\b{num}\b", s)` where `num` is a digit
string: `prev` records whether the previous character was a word
character (the start of the string counts as a boundary). -/
def searchWordGo (num : Str) : Bool → Str → Bool
  | prev, [] => !prev && num.isEmpty
  | prev, c :: rest =>
    (!prev && (match dropStart num (c :: rest) with
               | some r => boundaryAfter r
               | none => false))
    || searchWordGo num (isWordChar c) rest

/-- Whole-word occurrence of `num` anywhere in `s`. -/
def searchWord (num s : Str) : Bool := searchWordGo num false s

/-- Python `f.lower().endswith(".pdf")`. -/
def endsWithPdf (f : Str) : Bool := (f.map Char.toLower).reverse.take 4 == strL "fdp."

/-- `buscar_albaran_primero` (procesa_facturas_y_albaranes.py, lines
167-179): walk the pool file names in traversal order and return the
first PDF whose name contains the (already zero-padded) number as a
whole word. -/
def buscar_albaran_primero (num : Str) (files : List Str) : Option Str :=
  files.find? (fun f => endsWithPdf f && searchWord num f)

/-- Plain substring occurrence (no word boundaries), used to witness
that a pool file name does contain an unpadded digit variant. -/
def containsSub (p : Str) : Str → Bool
  | [] => (dropStart p []).isSome
  | c :: rest => (dropStart p (c :: rest)).isSome || containsSub p rest

/-- One attempt of the reference pattern
`Albar[aá]n\s*(?:Num\.?)?\s*A\d{2}\s*(\d{1,4})` (procesa_facturas_y_albaranes.py,
line 156) at the head of `s`; returns the captured group and the rest
of the text after the match.  The optional `Num\.?` element and the
greedy digit group follow the regex's backtracking order; the
character classes here are disjoint from their successors, so the
greedy choices are canonical. -/
def matchAlbRefAt (s : Str) : Option (Str × Str) := do
  let r1 ← dropStartCI (strL "albar") s
  let r2 ← matchAccentA r1
  let r3 ← expectCI 'n' r2
  let r4 := r3.dropWhile isPySpace
  let r5 := match dropStartCI (strL "num") r4 with
            | some a => match a with
                        | '.' :: t => t
                        | _ => a
            | none => r4
  let r6 := r5.dropWhile isPySpace
  let r7 ← expectCI 'a' r6
  let r8 ← (match r7 with
            | d1 :: d2 :: rest => if d1.isDigit && d2.isDigit then some rest else none
            | _ => none)
  let r9 := r8.dropWhile isPySpace
  let digs := r9.takeWhile Char.isDigit
  if 1 ≤ digs.length then
    let g := digs.take 4
    some (g, r9.drop g.length)
  else none

/-- `patron.finditer(texto)`: left-to-right non-overlapping matches.
Every step consumes at least one character, so fuel equal to the text
length suffices. -/
def finditerAlbRef : Nat → Str → List Str
  | 0, _ => []
  | _ + 1, [] => []
  | fuel + 1, c :: rest =>
    match matchAlbRefAt (c :: rest) with
    | some (g, r) => g :: finditerAlbRef fuel r
    | none => finditerAlbRef fuel rest

/-- `extraer_numeros_albaran_ordenados` (procesa_facturas_y_albaranes.py,
lines 145-161): the referenced numbers, zero-padded to four digits, in
order of appearance and with duplicates kept (the source explicitly
avoids `set()`). -/
def extraer_numeros_albaran_ordenados (texto : Str) : List Str :=
  (finditerAlbRef texto.length texto).map (zfill 4)

/-- The per-key resolution record: each referenced number paired with
the pool file found for it (the `MatchResult` view of the per-number
loop in `main`). -/
def resultados (buscar : Str → Option Str) (nums : List Str) : List (Str × Option Str) :=
  nums.map (fun n => (n, buscar n))

/-- The `for num in nums` loop of `main` (procesa_facturas_y_albaranes.py,
lines 250-261): the accumulator is
`(lista_a_unir, albaranes_faltantes, encontrados_para_factura)`. -/
def procesa_factura_loop (buscar : Str → Option Str) :
    List Str → (List Str × List Str × Nat) → (List Str × List Str × Nat)
  | [], acc => acc
  | num :: rest, acc =>
    match buscar num with
    | some ruta => procesa_factura_loop buscar rest (acc.1 ++ [ruta], acc.2.1, acc.2.2 + 1)
    | none => procesa_factura_loop buscar rest (acc.1, acc.2.1 ++ [num], acc.2.2)

/-- `os.path.splitext` on a file name: split at the last dot.  The
special handling of names consisting only of leading dots is not
modelled; the inputs in this development are ordinary `*.pdf` names. -/
def splitext (f : Str) : Str × Str :=
  let revE := f.reverse.takeWhile (fun c => !(c == '.'))
  let revR := f.reverse.dropWhile (fun c => !(c == '.'))
  match revR with
  | '.' :: restR => if restR = [] then (f, []) else (restR.reverse, '.' :: revE.reverse)
  | _ => (f, [])

/-- The merged-output name of `main` (procesa_facturas_y_albaranes.py,
lines 267-272): `"{base} {nombre_cliente}{ext}"` when a counterparty
was found, `"{base}{ext}"` otherwise. -/
def salida_nombre (factura : Str) (nombre_cliente : Option Str) : Str :=
  let be := splitext factura
  match nombre_cliente with
  | some n => be.1 ++ ' ' :: (n ++ be.2)
  | none => be.1 ++ be.2

/-- One invoice of `main`'s outer loop (procesa_facturas_y_albaranes.py,
lines 233-285): returns the optional emitted output (its pre-collision
name and the ordered merge list) and the missing-reference report for
this invoice.  No output is emitted when no numbers were detected or
when none of them resolved. -/
def procesa_factura_paso (buscar : Str → Option Str) (factura : Str)
    (nombre_cliente : Option Str) (nums : List Str) :
    Option (Str × List Str) × List Str :=
  if nums = [] then (none, [])
  else
    let acc := procesa_factura_loop buscar nums ([factura], [], 0)
    if acc.2.2 = 0 then (none, acc.2.1)
    else (some (salida_nombre factura nombre_cliente, acc.1), acc.2.1)

/-- The whole run: every invoice of the folder is processed in list
order, each independently of the others (exceptions are caught per
invoice in the source). -/
def procesa_run (buscar : Str → Option Str)
    (facturas : List (Str × Option Str × List Str)) :
    List (Option (Str × List Str) × List Str) :=
  facturas.map (fun x => procesa_factura_paso buscar x.1 x.2.1 x.2.2)

/-- The alternation `(SL|SA|SLU|SLL|SCOOP|SCOOPG|SC)` in source
order. -/
def suffixAlts : List Str :=
  [strL "SL", strL "SA", strL "SLU", strL "SLL", strL "SCOOP", strL "SCOOPG", strL "SC"]

/-- Ordered, case-insensitive alternation with the trailing `\b`:
when an alternative matches but the boundary fails, the regex engine
backtracks into the next alternative. -/
def matchAlts : List Str → Str → Option Str
  | [], _ => none
  | alt :: more, s =>
    match dropStartCI alt s with
    | some r => if boundaryAfter r = true then some r else matchAlts more s
    | none => matchAlts more s

/-- `re.sub(r'\b(SL|SA|SLU|SLL|SCOOP|SCOOPG|SC)\b', '', nombre, re.IGNORECASE)`:
scan left to right, removing non-overlapping whole-word matches.
`prev` tracks whether the previous kept character was a word character
(the leading `\b`).  Each step consumes at least one character, so
fuel equal to the string length suffices. -/
def removeSuffixGo : Nat → Bool → Str → Str
  | 0, _, s => s
  | _ + 1, _, [] => []
  | fuel + 1, prev, c :: rest =>
    if prev then c :: removeSuffixGo fuel (isWordChar c) rest
    else
      match matchAlts suffixAlts (c :: rest) with
      | some r => removeSuffixGo fuel true r
      | none => c :: removeSuffixGo fuel (isWordChar c) rest

/-- Whole-word removal of the corporate-form suffixes. -/
def removeSuffixWords (s : Str) : Str := removeSuffixGo s.length false s

/-- `limpiar_nombre_cliente_raw` (procesa_facturas_y_albaranes.py,
lines 71-79): strip, remove periods, remove corporate-form suffix
words, collapse whitespace runs of length at least two, strip again,
replace filesystem-reserved characters by underscores, and return
`None` for an empty result. -/
def limpiar_nombre_cliente_raw (nombre : Str) : Option Str :=
  if nombre = [] then none
  else
    let n1 := (stripStr nombre).filter (fun c => !(c == '.'))
    let n2 := removeSuffixWords n1
    let n3 := stripStr (collapseRuns2 n2)
    let n4 := n3.map reservedToUnderscore
    if n4 = [] then none else some n4

/-- A text block of the first page, as returned by the PDF reader:
bounding box plus the block text.  Coordinates are modelled as
integers in an arbitrary fixed-point page unit; the fractional zone
thresholds of the source (`x0 >= w * 0.45`, `y0 <= h * 0.30`,
`y0 <= h * 0.35`) are expressed below by exact cross-multiplication,
which is equivalent over exact arithmetic. -/
structure Bloque where
  x0 : ℤ
  y0 : ℤ
  x1 : ℤ
  y1 : ℤ
  text : Str

/-- `extraer_bloques_pymupdf_first_page` (procesa_facturas_y_albaranes.py,
lines 56-69): strip each block's text and keep the non-empty ones. -/
def extraer_bloques_first_page (blocks : List Bloque) : List Bloque :=
  (blocks.map (fun b => { b with text := stripStr b.text })).filter
    (fun b => !(b.text.isEmpty))

/-- Python `str.splitlines` restricted to the line breaks `\r\n`,
`\r` and `\n` (no trailing empty line). -/
def splitLinesGo : Str → Str → List Str
  | acc, [] => if acc = [] then [] else [acc.reverse]
  | acc, '\r' :: '\n' :: rest => acc.reverse :: splitLinesGo [] rest
  | acc, '\r' :: rest => acc.reverse :: splitLinesGo [] rest
  | acc, '\n' :: rest => acc.reverse :: splitLinesGo [] rest
  | acc, c :: rest => splitLinesGo (c :: acc) rest

/-- `[ln.strip() for ln in text.splitlines() if ln.strip()]`. -/
def linesOf (t : Str) : List Str :=
  ((splitLinesGo [] t).map stripStr).filter (fun l => !(l.isEmpty))

/-- Python `str.isupper` on ASCII input: at least one cased character
and no lower-case one. -/
def pyIsUpper (s : Str) : Bool := s.any Char.isAlpha && s.all (fun c => !(c.isLower))

/-- The top-right candidate loop of `extraer_nombre_cliente`
(procesa_facturas_y_albaranes.py, lines 110-117): take the first line
of the first candidate block that has one, clean it, and accept it
unless it is empty or the word FACTURA. -/
def pass1 : List Bloque → Option Str
  | [] => none
  | b :: rest =>
    match linesOf b.text with
    | [] => pass1 rest
    | ln :: _ =>
      match limpiar_nombre_cliente_raw ln with
      | some nombre =>
        if nombre.map Char.toUpper ≠ strL "FACTURA" then some nombre else pass1 rest
      | none => pass1 rest

/-- The inner line loop of the two fallbacks (procesa_facturas_y_albaranes.py,
lines 121-137): the FACTURA test is applied to the raw line, the
cleaning happens afterwards. -/
def lineScan : List Str → Option Str
  | [] => none
  | ln :: rest =>
    if pyIsUpper ln = true ∧ 3 < ln.length ∧ ln.map Char.toUpper ≠ strL "FACTURA" then
      match limpiar_nombre_cliente_raw ln with
      | some nombre => some nombre
      | none => lineScan rest
    else lineScan rest

/-- A fallback pass over the blocks (in reading order), restricted by
a block condition. -/
def fallback_pass (cond : Bloque → Bool) : List Bloque → Option Str
  | [] => none
  | b :: rest =>
    if cond b then
      match lineScan (linesOf b.text) with
      | some n => some n
      | none => fallback_pass cond rest
    else fallback_pass cond rest

/-- Strict order on candidate blocks for the key `(y0, -x0)` used by
`candidates.sort` (top to bottom, right-most first on ties). -/
def bloqueKeyLt (a b : Bloque) : Bool :=
  if a.y0 < b.y0 then true
  else if a.y0 = b.y0 then decide (b.x0 < a.x0)
  else false

/-- Stable insertion into a key-sorted list: a new block goes after
every block it does not strictly precede, as Python's stable sort
keeps equal keys in encounter order. -/
def insertBloque (b : Bloque) : List Bloque → List Bloque
  | [] => [b]
  | a :: rest => if bloqueKeyLt b a then b :: a :: rest else a :: insertBloque b rest

/-- Stable sort of the candidate blocks by `(y0, -x0)`. -/
def ordenarCandidatos (l : List Bloque) : List Bloque :=
  l.foldl (fun acc b => insertBloque b acc) []

/-- `extraer_nombre_cliente` (procesa_facturas_y_albaranes.py, lines
81-142): top-right candidate pass, then the upper-case-line fallback
over the top 35% of the page, then the same fallback over the whole
page.  `w` and `h` are the page dimensions. -/
def extraer_nombre_cliente (w h : ℤ) (blocksRaw : List Bloque) : Option Str :=
  let blocks := extraer_bloques_first_page blocksRaw
  let candidates := blocks.filter
    (fun b => decide (100 * b.x0 ≥ 45 * w) && decide (100 * b.y0 ≤ 30 * h))
  let sorted := ordenarCandidatos candidates
  match pass1 sorted with
  | some n => some n
  | none =>
    match fallback_pass (fun b => decide (100 * b.y0 ≤ 35 * h)) blocks with
    | some n => some n
    | none => fallback_pass (fun _ => true) blocks

/-- `re.sub(r'\r\n|\n', ' ', text)`: a Windows line break or a bare
line feed becomes one space; a lone carriage return is untouched. -/
def replaceNewlines : Str → Str
  | [] => []
  | '\r' :: '\n' :: rest => ' ' :: replaceNewlines rest
  | '\n' :: rest => ' ' :: replaceNewlines rest
  | c :: rest => c :: replaceNewlines rest

/-- Exactly four consecutive digits at the head of `s` (`\d{4}`),
returning the group and the rest. -/
def take4Digits : Str → Option (Str × Str)
  | d1 :: d2 :: d3 :: d4 :: rest =>
    if d1.isDigit && d2.isDigit && d3.isDigit && d4.isDigit
    then some ([d1, d2, d3, d4], rest) else none
  | _ => none

/-- Exactly two consecutive digits (`\d{2}`). -/
def take2Digits : Str → Option Str
  | d1 :: d2 :: rest => if d1.isDigit && d2.isDigit then some rest else none
  | _ => none

/-- `\s+` (greedy; its successors here are digits, disjoint from
whitespace, so full consumption is canonical). -/
def spacesOneOrMore : Str → Option Str
  | c :: rest => if isPySpace c then some (rest.dropWhile isPySpace) else none
  | [] => none

/-- One attempt of `REGEX_PATTERNS[0] =
Albar[aá]n[:\s]*A\s*(\d{2})\s+(\d{4})` (procesar_albaranes.py, line
53, `re.IGNORECASE`) at the head of `s`, returning the second
group. -/
def matchP1At (s : Str) : Option Str := do
  let r1 ← dropStartCI (strL "albar") s
  let r2 ← matchAccentA r1
  let r3 ← expectCI 'n' r2
  let r4 := r3.dropWhile (fun c => c == ':' || isPySpace c)
  let r5 ← expectCI 'a' r4
  let r6 := r5.dropWhile isPySpace
  let r7 ← take2Digits r6
  let r8 ← spacesOneOrMore r7
  let (g, _) ← take4Digits r8
  pure g

/-- `re.search` scan for the first pattern. -/
def searchP1 : Str → Option Str
  | [] => none
  | c :: rest =>
    match matchP1At (c :: rest) with
    | some g => some g
    | none => searchP1 rest

/-- One attempt of `REGEX_PATTERNS[1] = A\s*(\d{2})\s+(\d{4})`
(procesar_albaranes.py, line 54, `re.IGNORECASE`). -/
def matchP2At (s : Str) : Option Str := do
  let r1 ← expectCI 'a' s
  let r2 := r1.dropWhile isPySpace
  let r3 ← take2Digits r2
  let r4 ← spacesOneOrMore r3
  let (g, _) ← take4Digits r4
  pure g

/-- `re.search` scan for the second pattern. -/
def searchP2 : Str → Option Str
  | [] => none
  | c :: rest =>
    match matchP2At (c :: rest) with
    | some g => some g
    | none => searchP2 rest

/-- The lazy `\D*?(\d{4})` tail of `REGEX_PATTERNS[2]`: expand the
non-digit gap one character at a time; a digit that does not start a
four-digit run can be consumed by neither `\D` nor `\d{4}`, so the
attempt fails there. -/
def lazySkipThen4 : Str → Option Str
  | [] => none
  | c :: rest =>
    match take4Digits (c :: rest) with
    | some (g, _) => some g
    | none => if !(c.isDigit) then lazySkipThen4 rest else none

/-- One attempt of `REGEX_PATTERNS[2] = ([A]\d{2})\D*?(\d{4})`
(procesar_albaranes.py, line 55, case-sensitive). -/
def matchP3At : Str → Option Str
  | 'A' :: rest => do
    let r ← take2Digits rest
    lazySkipThen4 r
  | _ => none

/-- `re.search` scan for the third pattern. -/
def searchP3 : Str → Option Str
  | [] => none
  | c :: rest =>
    match matchP3At (c :: rest) with
    | some g => some g
    | none => searchP3 rest

/-- `re.search(r'\b(\d{4})\b', norm)`: first four-digit whole word. -/
def fallback4Go : Bool → Str → Option Str
  | _, [] => none
  | prev, c :: rest =>
    match (if prev then none
           else match take4Digits (c :: rest) with
                | some (g, r) => if boundaryAfter r then some g else none
                | none => none) with
    | some g => some g
    | none => fallback4Go (isWordChar c) rest

/-- `num[-4:].zfill(4)` for a digit group. -/
def last4pad (num : Str) : Str := zfill 4 (num.drop (num.length - 4))

/-- The per-pattern post-processing of `extract_albaran_from_text`:
the group is pure digits (`re.sub(r'\D','',...)` is the identity on
it); groups shorter than three digits would fall through to the next
pattern, though the `\d{4}` groups here always have length four. -/
def patResult (g : Option Str) : Option Str :=
  match g with
  | some num => if 3 ≤ num.length then some (last4pad num) else none
  | none => none

/-- `extract_albaran_from_text` (procesar_albaranes.py, lines
191-227): normalise the OCR text, try the three patterns in order,
then the four-digit-word fallback.  Returns the detected number and
the normalised text, as the source does. -/
def extract_albaran_from_text (text : Str) : Option Str × Str :=
  if text = [] then (none, [])
  else
    let norm := stripStr (collapseRuns2 (replaceNewlines text))
    let r :=
      match patResult (searchP1 norm) with
      | some n => some n
      | none =>
        match patResult (searchP2 norm) with
        | some n => some n
        | none =>
          match patResult (searchP3 norm) with
          | some n => some n
          | none => fallback4Go false norm
    (r, norm)

/-! ### Shared helper lemmas -/

/-- The collision-loop candidates and `zfill` produce names of a known
length. -/
theorem zfill_length (w : Nat) (s : Str) (h : s.length ≤ w) : (zfill w s).length = w := by
  simp [zfill]
  omega

/-- Characters of `flushRun run` come from `run` or are the space put
in for a collapsed run. -/
theorem mem_flushRun (run : Str) (c : Char) (h : c ∈ flushRun run) : c ∈ run ∨ c = ' ' := by
  unfold flushRun at h
  split at h
  · simp at h
    exact Or.inr h
  · exact Or.inl h

/-- Characters of the whitespace-collapsing scan come from the input
(or are the inserted space). -/
theorem mem_collapseRuns2Go : ∀ (s : Str) (c : Char),
    (c ∈ (collapseRuns2Go s).1 → c ∈ s ∨ c = ' ') ∧ (c ∈ (collapseRuns2Go s).2 → c ∈ s)
  | [], c => by simp [collapseRuns2Go]
  | a :: rest, c => by
    have ih := mem_collapseRuns2Go rest c
    simp only [collapseRuns2Go]
    split
    · refine ⟨fun hm => ?_, fun hm => ?_⟩
      · rcases ih.1 hm with hm | hm
        · exact Or.inl (List.mem_cons_of_mem _ hm)
        · exact Or.inr hm
      · rcases List.mem_cons.mp hm with rfl | hm
        · exact List.mem_cons_self _ _
        · exact List.mem_cons_of_mem _ (ih.2 hm)
    · refine ⟨fun hm => ?_, fun hm => ?_⟩
      · rcases List.mem_cons.mp hm with rfl | hm
        · exact Or.inl (List.mem_cons_self _ _)
        · rcases List.mem_append.mp hm with hm | hm
          · rcases mem_flushRun _ _ hm with hm | hm
            · exact Or.inl (List.mem_cons_of_mem _ (ih.2 hm))
            · exact Or.inr hm
          · rcases ih.1 hm with hm | hm
            · exact Or.inl (List.mem_cons_of_mem _ hm)
            · exact Or.inr hm
      · simp at hm

/-- Characters of the collapsed string come from the input or are the
inserted space. -/
theorem mem_collapseRuns2 (s : Str) (c : Char) (h : c ∈ collapseRuns2 s) :
    c ∈ s ∨ c = ' ' := by
  unfold collapseRuns2 at h
  rcases List.mem_append.mp h with h | h
  · rcases mem_flushRun _ _ h with h | h
    · exact Or.inl ((mem_collapseRuns2Go s c).2 h)
    · exact Or.inr h
  · exact (mem_collapseRuns2Go s c).1 h

/-- Stripping only removes characters. -/
theorem mem_stripStr (s : Str) (c : Char) (h : c ∈ stripStr s) : c ∈ s := by
  unfold stripStr at h
  rw [List.mem_reverse] at h
  have h2 := List.Sublist.mem h (List.dropWhile_sublist _)
  rw [List.mem_reverse] at h2
  exact List.Sublist.mem h2 (List.dropWhile_sublist _)

/-- A successful case-insensitive prefix match splits the input. -/
theorem dropStartCI_append : ∀ (p s r : Str), dropStartCI p s = some r → ∃ t, s = t ++ r
  | [], s, r, h => ⟨[], by simpa using Option.some.inj h⟩
  | _ :: _, [], r, h => by simp [dropStartCI] at h
  | p :: ps, c :: cs, r, h => by
    simp only [dropStartCI] at h
    split at h
    · obtain ⟨t, ht⟩ := dropStartCI_append ps cs r h
      exact ⟨c :: t, by simp [ht]⟩
    · exact absurd h (by simp)

/-- A successful suffix-alternation match only discards characters. -/
theorem matchAlts_mem : ∀ (alts : List Str) (s r : Str), matchAlts alts s = some r →
    ∀ c ∈ r, c ∈ s
  | [], s, r, h => by simp [matchAlts] at h
  | alt :: more, s, r, h => by
    simp only [matchAlts] at h
    split at h
    · rename_i r0 hd
      split at h
      · obtain rfl := Option.some.inj h
        obtain ⟨t, rfl⟩ := dropStartCI_append alt s _ hd
        intro c hc
        exact List.mem_append.mpr (Or.inr hc)
      · exact matchAlts_mem more s r h
    · exact matchAlts_mem more s r h

/-- Suffix removal only discards characters. -/
theorem mem_removeSuffixGo : ∀ (fuel : Nat) (prev : Bool) (s : Str) (c : Char),
    c ∈ removeSuffixGo fuel prev s → c ∈ s
  | 0, _, s, c, h => by simpa [removeSuffixGo] using h
  | _ + 1, _, [], c, h => by simp [removeSuffixGo] at h
  | fuel + 1, prev, a :: rest, c, h => by
    simp only [removeSuffixGo] at h
    split at h
    · rcases List.mem_cons.mp h with rfl | h
      · exact List.mem_cons_self _ _
      · exact List.mem_cons_of_mem _ (mem_removeSuffixGo fuel _ rest c h)
    · cases hm : matchAlts suffixAlts (a :: rest) with
      | some r =>
        rw [hm] at h
        exact matchAlts_mem _ _ _ hm c (mem_removeSuffixGo fuel _ r c h)
      | none =>
        rw [hm] at h
        rcases List.mem_cons.mp h with rfl | h
        · exact List.mem_cons_self _ _
        · exact List.mem_cons_of_mem _ (mem_removeSuffixGo fuel _ rest c h)

/-- Every name produced by `limpiar_nombre_cliente_raw` is non-empty,
free of filesystem-reserved characters and free of periods. -/
theorem limpiar_some (s n : Str) (h : limpiar_nombre_cliente_raw s = some n) :
    n ≠ [] ∧ ∀ c ∈ n, isReservedChar c = false ∧ c ≠ '.' := by
  simp only [limpiar_nombre_cliente_raw] at h
  split at h
  · exact absurd h (by simp)
  · split at h
    · exact absurd h (by simp)
    · rename_i h4
      obtain rfl := Option.some.inj h
      refine ⟨h4, ?_⟩
      intro c hc
      rw [List.mem_map] at hc
      obtain ⟨d, hd, rfl⟩ := hc
      unfold reservedToUnderscore
      by_cases hr : isReservedChar d = true
      · rw [if_pos hr]
        exact ⟨by decide, by decide⟩
      · rw [if_neg hr]
        refine ⟨by simpa using hr, ?_⟩
        have hd3 := mem_stripStr _ _ hd
        rcases mem_collapseRuns2 _ _ hd3 with hd2 | rfl
        · have hd1 := mem_removeSuffixGo _ _ _ _ hd2
          have hmem := List.mem_filter.mp hd1
          simpa using hmem.2
        · decide

/-- Every name returned by the top-right candidate pass went through
the cleaner. -/
theorem pass1_some : ∀ (l : List Bloque) (n : Str), pass1 l = some n →
    ∃ s, limpiar_nombre_cliente_raw s = some n
  | [], n, h => by simp [pass1] at h
  | b :: rest, n, h => by
    simp only [pass1] at h
    split at h
    · exact pass1_some rest n h
    · rename_i ln _ hl
      split at h
      · rename_i nombre hc
        split at h
        · exact ⟨ln, by rw [hc, Option.some.inj h]⟩
        · exact pass1_some rest n h
      · exact pass1_some rest n h

/-- Every name returned by the fallback line loop went through the
cleaner. -/
theorem lineScan_some : ∀ (l : List Str) (n : Str), lineScan l = some n →
    ∃ s, limpiar_nombre_cliente_raw s = some n
  | [], n, h => by simp [lineScan] at h
  | ln :: rest, n, h => by
    simp only [lineScan] at h
    split at h
    · split at h
      · rename_i nombre hc
        exact ⟨ln, by rw [hc, Option.some.inj h]⟩
      · exact lineScan_some rest n h
    · exact lineScan_some rest n h

/-- Every name returned by a fallback pass went through the cleaner. -/
theorem fallback_pass_some (cond : Bloque → Bool) :
    ∀ (l : List Bloque) (n : Str), fallback_pass cond l = some n →
    ∃ s, limpiar_nombre_cliente_raw s = some n
  | [], n, h => by simp [fallback_pass] at h
  | b :: rest, n, h => by
    simp only [fallback_pass] at h
    split at h
    · split at h
      · rename_i n0 hc
        obtain rfl := Option.some.inj h
        exact lineScan_some _ _ hc
      · exact fallback_pass_some cond rest n h
    · exact fallback_pass_some cond rest n h

/-- Every name returned by the counterparty extractor went through the
cleaner. -/
theorem extraer_nombre_cliente_some (w h : ℤ) (blocks : List Bloque) (n : Str)
    (hn : extraer_nombre_cliente w h blocks = some n) :
    ∃ s, limpiar_nombre_cliente_raw s = some n := by
  simp only [extraer_nombre_cliente] at hn
  split at hn
  · rename_i n0 h1
    obtain rfl := Option.some.inj hn
    exact pass1_some _ _ h1
  · split at hn
    · rename_i n0 h2
      obtain rfl := Option.some.inj hn
      exact fallback_pass_some _ _ _ h2
    · exact fallback_pass_some _ _ _ hn

/-- A confusable character corrects back to the clean character under
the confusion map. -/
theorem confusedPair_translate (a b : Char) (h : confusedPair a b = true) :
    ocrTranslate b = ocrTranslate a := by
  simp only [confusedPair, Bool.or_eq_true, Bool.and_eq_true, beq_iff_eq] at h
  rcases h with ((((heq | ⟨rfl, rfl | rfl⟩) | ⟨rfl, (rfl | rfl) | rfl⟩) | ⟨rfl, rfl⟩) | ⟨rfl, rfl⟩) | ⟨rfl, rfl⟩
  · rw [heq]
  all_goals decide

/-- A pointwise OCR corruption disappears after the confusion map is
applied. -/
theorem confusedOf_translate : ∀ s t : Str, confusedOf s t = true →
    t.map ocrTranslate = s.map ocrTranslate
  | [], [], _ => rfl
  | [], _ :: _, h => by simp [confusedOf] at h
  | _ :: _, [], h => by simp [confusedOf] at h
  | a :: as, b :: bs, h => by
    simp only [confusedOf, Bool.and_eq_true] at h
    simp only [List.map_cons, confusedPair_translate a b h.1,
      confusedOf_translate as bs h.2]

/-- Closed form of the per-reference loop of `main`: the merge list
gets the resolved paths in order, the missing list gets the
unresolved numbers in order, and the counter counts the resolved
ones. -/
theorem procesa_factura_loop_spec (buscar : Str → Option Str) :
    ∀ (nums : List Str) (l1 l2 : List Str) (k : Nat),
    procesa_factura_loop buscar nums (l1, l2, k)
      = (l1 ++ nums.filterMap buscar,
         l2 ++ nums.filter (fun n => (buscar n).isNone),
         k + (nums.filterMap buscar).length)
  | [], l1, l2, k => by simp [procesa_factura_loop]
  | num :: rest, l1, l2, k => by
    cases hb : buscar num with
    | some ruta =>
      have h1 : procesa_factura_loop buscar (num :: rest) (l1, l2, k)
          = procesa_factura_loop buscar rest (l1 ++ [ruta], l2, k + 1) := by
        simp [procesa_factura_loop, hb]
      rw [h1, procesa_factura_loop_spec buscar rest]
      simp only [List.filterMap_cons, hb, List.filter_cons, Option.isNone_some,
        Bool.false_eq_true, if_false, List.append_assoc, List.singleton_append,
        List.length_cons, Prod.mk.injEq]
      exact ⟨trivial, trivial, by omega⟩
    | none =>
      have h1 : procesa_factura_loop buscar (num :: rest) (l1, l2, k)
          = procesa_factura_loop buscar rest (l1, l2 ++ [num], k) := by
        simp [procesa_factura_loop, hb]
      rw [h1, procesa_factura_loop_spec buscar rest]
      simp only [List.filterMap_cons, hb, List.filter_cons, Option.isNone_none,
        if_true, List.append_assoc, List.singleton_append, Prod.mk.injEq]

/-- A successful `RE_SERIE_NUM` attempt yields one to four digits. -/
theorem serieNumAt_num (t : Str) (c : Nat) (se nu : Str)
    (h : serieNumAt t c = some (se, nu)) :
    1 ≤ nu.length ∧ nu.length ≤ 4 ∧ ∀ x ∈ nu, x.isDigit = true := by
  simp only [serieNumAt] at h
  split at h
  · split at h
    · rename_i hcond
      simp only [Option.some.injEq, Prod.mk.injEq] at h
      obtain ⟨-, hnu⟩ := h
      subst hnu
      exact ⟨hcond.1, hcond.2.1, fun x hx => List.mem_takeWhile_imp hx⟩
    · exact absurd h (by simp)
  · exact absurd h (by simp)

/-- A successful `RE_SERIE_NUM` match yields one to four digits. -/
theorem matchSerieNum_num (s se nu : Str) (h : matchSerieNum s = some (se, nu)) :
    1 ≤ nu.length ∧ nu.length ≤ 4 ∧ ∀ x ∈ nu, x.isDigit = true := by
  simp only [matchSerieNum] at h
  obtain ⟨c, -, hc⟩ := List.exists_of_findSome?_eq_some h
  exact serieNumAt_num _ c se nu hc

/-- The bare-digits fallback also yields one to four digits. -/
theorem firstDigitRun_num : ∀ (s nu : Str), firstDigitRun s = some nu →
    1 ≤ nu.length ∧ nu.length ≤ 4 ∧ ∀ x ∈ nu, x.isDigit = true
  | [], nu, h => by simp [firstDigitRun] at h
  | c :: rest, nu, h => by
    simp only [firstDigitRun] at h
    split at h
    · rename_i hc
      obtain rfl := (Option.some.inj h).symm
      refine ⟨?_, ?_, ?_⟩
      · simp [List.takeWhile_cons, hc]
      · simp
      · intro x hx
        exact List.mem_takeWhile_imp (List.mem_of_mem_take hx)
    · exact firstDigitRun_num rest nu h

/-- Zero-stripping keeps digit strings non-empty, no longer, and
digits-only. -/
theorem lstripZeros_spec (nu : Str) (h1 : 1 ≤ nu.length)
    (hd : ∀ x ∈ nu, x.isDigit = true) :
    1 ≤ (lstripZeros nu).length ∧ (lstripZeros nu).length ≤ nu.length
    ∧ ∀ x ∈ lstripZeros nu, x.isDigit = true := by
  simp only [lstripZeros]
  split
  · exact ⟨h1, le_refl _, hd⟩
  · rename_i ht
    refine ⟨?_, ?_, ?_⟩
    · have := List.length_pos.mpr ht
      omega
    · exact (List.dropWhile_sublist _).length_le
    · intro x hx
      exact hd x (List.Sublist.mem hx (List.dropWhile_sublist _))

/-! ### Claim theorems -/

/-- Claim C1, counterexample: on the page-key stream
`[null, null, K1, null, K2]` the grouper emits `[{K1, pages 2-3},
{K2, page 4}]`; the two leading null-key pages are dropped, not merged
forward, so the claimed partition `[{K1, pages 0-3}, {K2, page 4}]` is
wrong and page 0 appears in no emitted group. -/
theorem claim_C1_counterexample :
    procesar_pdf_separar [none, none, some (strL "K1"), none, some (strL "K2")]
      = [(strL "K1", [2, 3]), (strL "K2", [4])]
    ∧ procesar_pdf_separar [none, none, some (strL "K1"), none, some (strL "K2")]
      ≠ [(strL "K1", [0, 1, 2, 3]), (strL "K2", [4])]
    ∧ ∀ g ∈ procesar_pdf_separar [none, none, some (strL "K1"), none, some (strL "K2")],
        (0 : Nat) ∉ g.2 := by decide

/-- Claim C1, amended: for any two distinct keys, the stream
`[null, null, K1, null, K2]` is partitioned into `[{K1, pages 2-3},
{K2, page 4}]` — null-key pages seen before any group has opened are
dropped (there is no first-group repair rule in the code). -/
theorem claim_C1_amended (k1 k2 : Str) (h : k1 ≠ k2) :
    procesar_pdf_separar [none, none, some k1, none, some k2]
      = [(k1, [2, 3]), (k2, [4])] := by
  have hne : ¬(k2 = k1) := fun e => h e.symm
  simp [procesar_pdf_separar, indexar, agruparPaginas, hne]

/-- Witness for C1: the amended grouping at the concrete keys. -/
theorem claim_C1_witness :
    strL "K1" ≠ strL "K2"
    ∧ procesar_pdf_separar [none, none, some (strL "K1"), none, some (strL "K2")]
        = [(strL "K1", [2, 3]), (strL "K2", [4])] :=
  ⟨by decide, claim_C1_amended (strL "K1") (strL "K2") (by decide)⟩

/-- Claim C2, counterexample: the confusion map is applied to the
whole raw string, so the alphabetic series letter 'S' of "SA 1234" is
itself rewritten to '5' and the series is lost (the key degenerates to
the bare number "5"), while the unconfusable series "XA" survives
intact — the correction does alter alphabetic series letters. -/
theorem claim_C2_counterexample :
    normalize_numeric_part (strL "SA 1234") = some ([], strL "5")
    ∧ normalize_numeric_part (strL "SA 1234") ≠ some (strL "SA", strL "1234")
    ∧ normalize_numeric_part (strL "XA 1234") = some (strL "XA", strL "1234") := by decide

/-- Claim C2, amended: replacing any characters of a raw string by
their OCR confusions (O/o for 0, I/l/| for 1, Z for 2, S for 5, B for
8) leaves `normalize_numeric_part` unchanged; however the correction
map is applied to the whole string, not only to the numeric portion,
so series letters that are themselves confusable characters are
rewritten as well. -/
theorem claim_C2_amended (s t : Str) (h : confusedOf s t = true) :
    normalize_numeric_part t = normalize_numeric_part s := by
  cases s with
  | nil =>
    cases t with
    | nil => rfl
    | cons b bs => simp [confusedOf] at h
  | cons a as =>
    cases t with
    | nil => simp [confusedOf] at h
    | cons b bs =>
      have hm := confusedOf_translate (a :: as) (b :: bs) h
      simp only [normalize_numeric_part]
      rw [if_neg (by simp), if_neg (by simp), hm]

/-- Witness for C2: the OCR-corrupted "A25 l6O8" normalizes exactly as
the clean "A25 1608". -/
theorem claim_C2_witness :
    confusedOf (strL "A25 1608") (strL "A25 l6O8") = true
    ∧ normalize_numeric_part (strL "A25 l6O8") = normalize_numeric_part (strL "A25 1608") :=
  ⟨by decide, claim_C2_amended (strL "A25 1608") (strL "A25 l6O8") (by decide)⟩

/-- Claim C3: the resolver produces exactly one result per referenced
key, in input order and without deduplication; the merge list is the
primary document followed by the resolved paths in that order; and the
reference extractor preserves order and duplicates, as seen on a text
citing A25-1, A25-2, A25-1. -/
theorem claim_C3 (buscar : Str → Option Str) (factura : Str) (nums : List Str) :
    (resultados buscar nums).length = nums.length
    ∧ (resultados buscar nums).map Prod.fst = nums
    ∧ (procesa_factura_loop buscar nums ([factura], [], 0)).1
        = factura :: nums.filterMap buscar
    ∧ resultados buscar [strL "K1", strL "K2", strL "K1"]
        = [(strL "K1", buscar (strL "K1")), (strL "K2", buscar (strL "K2")),
           (strL "K1", buscar (strL "K1"))]
    ∧ extraer_numeros_albaran_ordenados
        (strL "Albarán A25 1 Albarán A25 2 Albarán A25 1")
        = [strL "0001", strL "0002", strL "0001"] := by
  refine ⟨by simp [resultados], ?_, ?_, rfl, by decide⟩
  · show List.map Prod.fst (List.map (fun n => (n, buscar n)) nums) = nums
    rw [List.map_map]
    exact List.map_id _
  · rw [procesa_factura_loop_spec]
    simp

/-- Claim C4, counterexample: the by-name search looks only for the
zero-padded four-digit string as a whole word; a pool file whose name
carries the unpadded variant "487" is not matched for the key "0487",
although the digit string is present as a substring. -/
theorem claim_C4_counterexample :
    buscar_albaran_primero (strL "0487") [strL "Factura 487.pdf"] = none
    ∧ containsSub (strL "487") (strL "Factura 487.pdf") = true := by decide

/-- Claim C4, amended: the by-name search matches exactly the PDF
files whose name contains the zero-padded digit string as a whole
word — no unpadded or series-prefixed variants, and no specificity
ranking: the first matching file in traversal order is returned. -/
theorem claim_C4_amended (num : Str) (files : List Str) :
    (∀ f, buscar_albaran_primero num files = some f →
        endsWithPdf f = true ∧ searchWord num f = true)
    ∧ ((∀ f ∈ files, searchWord num f = false) →
        buscar_albaran_primero num files = none)
    ∧ (∀ g rest, endsWithPdf g = true → searchWord num g = true →
        buscar_albaran_primero num (g :: rest) = some g) := by
  refine ⟨?_, ?_, ?_⟩
  · intro f hf
    have hp := List.find?_some hf
    rw [Bool.and_eq_true] at hp
    exact hp
  · intro hall
    simp only [buscar_albaran_primero]
    rw [List.find?_eq_none]
    intro x hx
    simp [hall x hx]
  · intro g rest hpdf hword
    simp only [buscar_albaran_primero]
    exact List.find?_cons_of_pos _ (by simp [hpdf, hword])

/-- Witness for C4: the first-match clause at a concrete pool. -/
theorem claim_C4_witness :
    buscar_albaran_primero (strL "0487") [strL "A 0487.pdf"] = some (strL "A 0487.pdf") :=
  (claim_C4_amended (strL "0487") [strL "A 0487.pdf"]).2.2
    (strL "A 0487.pdf") [] (by decide) (by decide)

/-- Claim C5, counterexample: the separator's normalizer reads
"A25 1608" as series "A" with number "25" (key `A#0025`), not as
`{series "A25", number "1608"}`; "bare 42" gets the series "BARE",
not a null series; and the delivery-note extractor returns the bare
number "1608" for "Albarán: A25  1608", discarding the series. -/
theorem claim_C5_counterexample :
    normalize_numeric_part (strL "A25 1608") = some (strL "A", strL "25")
    ∧ normalize_numeric_part (strL "A25 1608") ≠ some (strL "A25", strL "1608")
    ∧ normalize_numeric_part (strL "bare 42") = some (strL "BARE", strL "42")
    ∧ normalize_numeric_part (strL "bare 42") ≠ some ([], strL "42")
    ∧ (extract_albaran_from_text (strL "Albarán: A25  1608")).1 = some (strL "1608") := by
  decide

/-- Claim C5, amended: the two normalizers behave as follows on the
spec's examples: `extract_albaran_from_text` finds "1608" in
"Albarán: A25  1608" but keeps no series; the separator's
`normalize_numeric_part` turns "Albarán: A25  1608" into the bare
number "1") because the confusion map rewrites the 'l' of "Albarán"
to '1'), reads "A25 1608" as `("A", "25")` with key `A#0025`, and
reads "bare 42" as `("BARE", "42")` with key `BARE#0042`. -/
theorem claim_C5_amended :
    (extract_albaran_from_text (strL "Albarán: A25  1608")).1 = some (strL "1608")
    ∧ normalize_numeric_part (strL "Albarán: A25  1608") = some ([], strL "1")
    ∧ normalize_numeric_part (strL "A25 1608") = some (strL "A", strL "25")
    ∧ make_key_from_parts (some (strL "A")) (some (strL "25")) none = some (strL "A#0025")
    ∧ normalize_numeric_part (strL "bare 42") = some (strL "BARE", strL "42")
    ∧ make_key_from_parts (some (strL "BARE")) (some (strL "42")) none
        = some (strL "BARE#0042") := by
  decide

/-- Claim C6, counterexample: a digit run longer than four digits is
not right-truncated to its last four: the separator's normalizer keeps
the first four digits of "16085" (yielding "1608", not "6085"), and
the delivery-note extractor finds nothing at all in "16085". -/
theorem claim_C6_counterexample :
    normalize_numeric_part (strL "16085") = some ([], strL "1608")
    ∧ normalize_numeric_part (strL "16085") ≠ some ([], strL "6085")
    ∧ (extract_albaran_from_text (strL "16085")).1 = none := by decide

/-- Claim C6, amended: every number recognized by the separator's
normalizer has between one and four digits (a longer run contributes
its first four digits, not its last four), the zero-padded key number
has exactly four characters, and a recognized series prefix is
upper-cased and retained, as on "a25 7". -/
theorem claim_C6_amended (s serie num : Str)
    (h : normalize_numeric_part s = some (serie, num)) :
    (1 ≤ num.length ∧ num.length ≤ 4 ∧ (∀ x ∈ num, x.isDigit = true)
      ∧ (zfill 4 num).length = 4)
    ∧ normalize_numeric_part (strL "a25 7") = some (strL "A", strL "25") := by
  refine ⟨?_, by decide⟩
  simp only [normalize_numeric_part] at h
  split at h
  · exact absurd h (by simp)
  · cases hm : matchSerieNum (s.map ocrTranslate) with
    | some p =>
      obtain ⟨se0, nu0⟩ := p
      rw [hm] at h
      simp only [Option.some.injEq, Prod.mk.injEq] at h
      obtain ⟨-, hnum⟩ := h
      obtain ⟨a1, a2, a3⟩ := matchSerieNum_num _ _ _ hm
      obtain ⟨b1, b2, b3⟩ := lstripZeros_spec nu0 a1 a3
      subst hnum
      exact ⟨b1, le_trans b2 a2, b3, zfill_length 4 _ (le_trans b2 a2)⟩
    | none =>
      rw [hm] at h
      cases hf : firstDigitRun (s.map ocrTranslate) with
      | some nu0 =>
        rw [hf] at h
        simp only [Option.some.injEq, Prod.mk.injEq] at h
        obtain ⟨-, hnum⟩ := h
        obtain ⟨a1, a2, a3⟩ := firstDigitRun_num _ _ hf
        obtain ⟨b1, b2, b3⟩ := lstripZeros_spec nu0 a1 a3
        subst hnum
        exact ⟨b1, le_trans b2 a2, b3, zfill_length 4 _ (le_trans b2 a2)⟩
      | none => rw [hf] at h; exact absurd h (by simp)

/-- Witness for C6: the amended bounds at the concrete input "A25 7". -/
theorem claim_C6_witness :
    normalize_numeric_part (strL "A25 7") = some (strL "A", strL "25")
    ∧ ((1 ≤ (strL "25").length ∧ (strL "25").length ≤ 4
        ∧ (∀ x ∈ strL "25", x.isDigit = true) ∧ (zfill 4 (strL "25")).length = 4)
      ∧ normalize_numeric_part (strL "a25 7") = some (strL "A", strL "25")) :=
  ⟨by decide, claim_C6_amended (strL "A25 7") (strL "A") (strL "25") (by decide)⟩

/-- Claim C7: whatever name the collision loop returns is not among
the files already present (no existing file is ever overwritten), and
writing twice with the same computed name produces "name.pdf" and then
"name (1).pdf". -/
theorem claim_C7 (fs : List Str) (base ext : Str) (k fuel : Nat) (p : Str)
    (h : resolve_collision fs base ext k fuel = some p) :
    p ∉ fs
    ∧ resolve_collision [] (strL "name") (strL ".pdf") 0 1 = some (strL "name.pdf")
    ∧ resolve_collision [strL "name.pdf"] (strL "name") (strL ".pdf") 0 2
        = some (strL "name (1).pdf") := by
  refine ⟨?_, by decide, by decide⟩
  induction fuel generalizing k with
  | zero => simp [resolve_collision] at h
  | succ n ih =>
    simp only [resolve_collision] at h
    split at h
    · exact ih _ h
    · rename_i hc
      obtain rfl := Option.some.inj h
      exact hc

/-- Witness for C7: applied at a folder already holding "name.pdf". -/
theorem claim_C7_witness :
    strL "name (1).pdf" ∉ [strL "name.pdf"]
    ∧ resolve_collision [] (strL "name") (strL ".pdf") 0 1 = some (strL "name.pdf")
    ∧ resolve_collision [strL "name.pdf"] (strL "name") (strL ".pdf") 0 2
        = some (strL "name (1).pdf") :=
  claim_C7 [strL "name.pdf"] (strL "name") (strL ".pdf") 0 2 (strL "name (1).pdf")
    (by decide)

/-- Claim C8: when every referenced number of an invoice fails to
resolve, the step emits no output, reports exactly the referenced
numbers as missing, and the run still processes every other invoice
(the run is the independent per-invoice map). -/
theorem claim_C8 (buscar : Str → Option Str) (factura : Str) (nc : Option Str)
    (nums : List Str) (xs ys : List (Str × Option Str × List Str))
    (h : ∀ n ∈ nums, buscar n = none) :
    (procesa_factura_paso buscar factura nc nums).1 = none
    ∧ (procesa_factura_paso buscar factura nc nums).2 = nums
    ∧ procesa_run buscar (xs ++ (factura, nc, nums) :: ys)
        = procesa_run buscar xs
          ++ procesa_factura_paso buscar factura nc nums :: procesa_run buscar ys := by
  have hfm : nums.filterMap buscar = [] := List.filterMap_eq_nil_iff.mpr h
  have hft : nums.filter (fun n => (buscar n).isNone) = nums :=
    List.filter_eq_self.mpr (fun a ha => by simp [h a ha])
  refine ⟨?_, ?_, by simp [procesa_run]⟩
  · by_cases hn : nums = []
    · simp [procesa_factura_paso, hn]
    · simp [procesa_factura_paso, hn, procesa_factura_loop_spec, hfm]
  · by_cases hn : nums = []
    · simp [procesa_factura_paso, hn]
    · simp [procesa_factura_paso, hn, procesa_factura_loop_spec, hfm, hft]

/-- Witness for C8: a pool that resolves nothing, one referenced
number, one neighbouring invoice on each side. -/
theorem claim_C8_witness :
    (procesa_factura_paso (fun _ => none) (strL "F.pdf") none [strL "0001"]).1 = none
    ∧ (procesa_factura_paso (fun _ => none) (strL "F.pdf") none [strL "0001"]).2
        = [strL "0001"]
    ∧ procesa_run (fun _ => none)
        ([(strL "A.pdf", none, [])] ++ (strL "F.pdf", none, [strL "0001"])
          :: [(strL "B.pdf", none, [])])
        = procesa_run (fun _ => none) [(strL "A.pdf", none, [])]
          ++ procesa_factura_paso (fun _ => none) (strL "F.pdf") none [strL "0001"]
            :: procesa_run (fun _ => none) [(strL "B.pdf", none, [])] :=
  claim_C8 (fun _ => none) (strL "F.pdf") none [strL "0001"]
    [(strL "A.pdf", none, [])] [(strL "B.pdf", none, [])]
    (fun _ _ => rfl)

/-- Claim C9, counterexample: there is no "CLIENTE" placeholder — a
merged packet with an unknown counterparty is named from the invoice
stem alone, and a segmented invoice's name carries no counterparty
field at all. -/
theorem claim_C9_counterexample :
    salida_nombre (strL "F123.pdf") none = strL "F123.pdf"
    ∧ salida_nombre (strL "F123.pdf") none ≠ strL "F123 CLIENTE.pdf"
    ∧ save_invoice_filename none none (some (strL "1608")) none
        = strL "0000-00-00 FE#1608.pdf"
    ∧ save_invoice_filename none none (some (strL "1608")) none
        ≠ strL "0000-00-00 FE#1608 CLIENTE.pdf" := by decide

/-- Claim C9, amended: a segmented invoice with an unknown date is
named `"0000-00-00 FE#{number padded to 4}{optional series}.pdf"`
with no counterparty field, and a merged packet is named
`"{stem} {counterparty}.pdf"` when the counterparty is known and
`"{stem}.pdf"` (no placeholder) otherwise. -/
theorem claim_C9_amended (serie raw : Option Str) (n : Str) (hlen : n.length ≤ 4) :
    save_invoice_filename none serie (some n) raw
      = strL "0000-00-00 FE#" ++ zfill 4 n
        ++ (match serie with | some s => ' ' :: s | none => []) ++ strL ".pdf"
    ∧ (zfill 4 n).length = 4
    ∧ (∀ f, salida_nombre f none = (splitext f).1 ++ (splitext f).2)
    ∧ (∀ f c, salida_nombre f (some c)
        = (splitext f).1 ++ ' ' :: (c ++ (splitext f).2)) := by
  refine ⟨?_, zfill_length 4 n hlen, fun f => rfl, fun f c => rfl⟩
  simp only [save_invoice_filename, Option.getD_none, List.append_assoc]
  rfl

/-- Witness for C9: the amended naming at a concrete number. -/
theorem claim_C9_witness :
    (strL "7").length ≤ 4
    ∧ save_invoice_filename none none (some (strL "7")) none
        = strL "0000-00-00 FE#" ++ zfill 4 (strL "7")
          ++ (match (none : Option Str) with | some s => ' ' :: s | none => []) ++ strL ".pdf"
    ∧ (zfill 4 (strL "7")).length = 4
    ∧ (∀ f, salida_nombre f none = (splitext f).1 ++ (splitext f).2)
    ∧ (∀ f c, salida_nombre f (some c)
        = (splitext f).1 ++ ' ' :: (c ++ (splitext f).2)) :=
  ⟨by decide, claim_C9_amended none none (strL "7") (by decide)⟩

/-- Claim C10, counterexample: the raw-line FACTURA test of the
fallback passes lets the cleaned name be exactly "FACTURA": a page
whose only top block reads "FACTURA." (period included, so the raw
line differs from "FACTURA") yields the counterparty "FACTURA". -/
theorem claim_C10_counterexample :
    extraer_nombre_cliente 100 100 [⟨10, 10, 50, 20, strL "FACTURA."⟩]
      = some (strL "FACTURA") := by decide

/-- Claim C10, amended: every counterparty the extractor returns is a
non-empty cleaned name containing none of the filesystem-reserved
characters and no period (periods and corporate-form suffix words are
removed, whitespace runs collapsed); the word FACTURA is rejected on
the top-right candidate path, but the fallback paths test the raw line
before cleaning, so a cleaned result equal to "FACTURA" can still be
returned. -/
theorem claim_C10_amended (w h : ℤ) (blocks : List Bloque) (n : Str)
    (hn : extraer_nombre_cliente w h blocks = some n) :
    n ≠ [] ∧ ∀ c ∈ n, isReservedChar c = false ∧ c ≠ '.' := by
  obtain ⟨s, hs⟩ := extraer_nombre_cliente_some w h blocks n hn
  exact limpiar_some s n hs

/-- Witness for C10: a concrete page block whose cleaned counterparty
"ACME" satisfies the amended guarantees. -/
theorem claim_C10_witness :
    extraer_nombre_cliente 100 100 [⟨50, 10, 90, 20, strL "ACME SL"⟩]
      = some (strL "ACME")
    ∧ (strL "ACME" ≠ [] ∧ ∀ c ∈ strL "ACME", isReservedChar c = false ∧ c ≠ '.') :=
  ⟨by decide,
    claim_C10_amended 100 100 [⟨50, 10, 90, 20, strL "ACME SL"⟩] (strL "ACME")
      (by decide)⟩
